import Mathlib

/-!
Verification development for the claude-automation repository.

Part A embeds the JavaScript `ClaudeSessionManager` (file
`src/websocket-coordinator/session-manager.js`, reproduced in the design
document): a registry of spawned worker processes keyed by agent type,
with operations `startSession`, `injectContext`, `stopSession` and the
child-process exit handler.  The JavaScript `Map` is modelled as an
association list with the exact `set` (replace first occurrence or
append), `get` (first occurrence) and `delete` (remove first occurrence)
semantics; spawned processes live in a list indexed by spawn order, the
stdin stream of each being the list of strings written to it, in order.
Console logging, the text of the spawn command line and the wall-clock
timestamp are not modelled: no claim depends on them.

Part B models, from the specification, the Rust injector library
(payload construction, session-log reduction, process scanning) whose
source is not part of the repository snapshot: only its documentation
and callers are.
-/

namespace ClaudeAutomation

/-- One spawned `claude` child process.  `stdinData` is the sequence of
strings written to its stdin pipe, in write order; `sigTermSent` records
that the manager sent SIGTERM to it. -/
structure SpawnedProcess where
  stdinData : List String
  sigTermSent : Bool
deriving Repr, DecidableEq

/-- The session object stored in the registry by `startSession`
(JavaScript literal `{ process, agentType, taskId, startedAt,
outputBuffer }`); the process handle is represented by the index of the
process in the spawn list. -/
structure SessionEntry where
  procId : Nat
  agentType : String
  taskId : String
  startedAt : String
  outputBuffer : String
deriving Repr, DecidableEq

/-- The task context object whose JSON rendering `startSession` writes
to the per-agent task file. -/
structure TaskContext where
  title : String
  subtask_id : String
  details : Option String
deriving Repr, DecidableEq

/-- JavaScript `Map.prototype.set`: replace the value at an existing key
in place, otherwise append the new binding. -/
def mapSet (m : List (String × SessionEntry)) (k : String) (v : SessionEntry) :
    List (String × SessionEntry) :=
  match m with
  | [] => [(k, v)]
  | (k1, v1) :: rest => if k1 = k then (k, v) :: rest else (k1, v1) :: mapSet rest k v

/-- JavaScript `Map.prototype.get`: first binding of the key, if any. -/
def mapGet (m : List (String × SessionEntry)) (k : String) : Option SessionEntry :=
  match m with
  | [] => none
  | (k1, v1) :: rest => if k1 = k then some v1 else mapGet rest k

/-- JavaScript `Map.prototype.delete`: remove the binding of the key. -/
def mapDelete (m : List (String × SessionEntry)) (k : String) :
    List (String × SessionEntry) :=
  match m with
  | [] => []
  | (k1, v1) :: rest => if k1 = k then rest else (k1, v1) :: mapDelete rest k

/-- Number of registry bindings for a key. -/
def countKey (m : List (String × SessionEntry)) (k : String) : Nat :=
  (m.filter (fun e => e.1 = k)).length

/-- State owned by one `ClaudeSessionManager`: the `sessions` Map
(agent type to session entry), the processes spawned so far (indexed by
spawn order; a spawned process never leaves this list, mirroring the OS),
and the task files written so far. -/
structure ManagerState where
  sessions : List (String × SessionEntry)
  procs : List SpawnedProcess
  taskFiles : List (String × TaskContext)
deriving Repr, DecidableEq

/-- The readable files of the prompts directory: maps an agent type to
the contents of `prompts/<agentType>.txt`, `none` when the read fails. -/
structure FileSystem where
  promptFile : String → Option String

/-- Embeds `ClaudeSessionManager.startSession`.  It reads the system
prompt for the agent type and returns `null` (here `none`) on a read
error, before any other effect; otherwise it writes the task file,
spawns a `claude` process with piped stdio, builds the session object
and stores it in the registry with `Map.set`, overwriting any existing
binding for the same agent type — the source performs no already-active
check.  `now` abstracts `new Date().toISOString()`. -/
def startSession (fs : FileSystem) (st : ManagerState) (agentType taskId : String)
    (taskContext : TaskContext) (now : String) : Option SessionEntry × ManagerState :=
  match fs.promptFile agentType with
  | none => (none, st)
  | some _systemPrompt =>
      let procId := st.procs.length
      let claudeProcess : SpawnedProcess := { stdinData := [], sigTermSent := false }
      let session : SessionEntry :=
        { procId, agentType, taskId, startedAt := now, outputBuffer := "" }
      (some session,
        { sessions := mapSet st.sessions agentType session,
          procs := st.procs ++ [claudeProcess],
          taskFiles := st.taskFiles ++ [(agentType, taskContext)] })

/-- Append one written string to the stdin stream of process `i`;
identity when no such process exists. -/
def writeStdin : List SpawnedProcess → Nat → String → List SpawnedProcess
  | [], _, _ => []
  | p :: ps, 0, s => { p with stdinData := p.stdinData ++ [s] } :: ps
  | p :: ps, Nat.succ i, s => p :: writeStdin ps i s

/-- The stdin stream captured for process `i`. -/
def stdinOf : List SpawnedProcess → Nat → List String
  | [], _ => []
  | p :: _, 0 => p.stdinData
  | _ :: ps, Nat.succ i => stdinOf ps i

/-- Mark SIGTERM sent to process `i`. -/
def killSigTerm : List SpawnedProcess → Nat → List SpawnedProcess
  | [], _ => []
  | p :: ps, 0 => { p with sigTermSent := true } :: ps
  | p :: ps, Nat.succ i => p :: killSigTerm ps i

/-- Observable outcome of one `injectContext` call: either a line was
written to the stdin of the session, or the call returned early because
the registry has no entry for the agent type.  The source has no error
path: both outcomes are normal returns. -/
inductive InjectResult
  | written
  | skippedNoSession
deriving Repr, DecidableEq

/-- Embeds `ClaudeSessionManager.injectContext`.  It looks the agent
type up in the registry; when absent it logs a warning and returns
(nothing is written, no exception is raised); when present it writes the
injection prompt plus a newline to the stdin of the process in one
`write` call.  The prompt built by `buildContextInjection` is taken as
an argument: no claim depends on its text. -/
def injectContext (st : ManagerState) (agentType : String) (injectionPrompt : String) :
    InjectResult × ManagerState :=
  match mapGet st.sessions agentType with
  | none => (.skippedNoSession, st)
  | some session =>
      (.written,
        { st with procs := writeStdin st.procs session.procId (injectionPrompt ++ "\n") })

set_option linter.unusedVariables false in
/-- Embeds the `claudeProcess.on` exit handler registered by
`startSession`: it logs the exit code and deletes the registry entry of
the agent type.  The exit code has no effect on the state. -/
def onExit (st : ManagerState) (agentType : String) (code : Int) : ManagerState :=
  { st with sessions := mapDelete st.sessions agentType }

/-- Embeds `ClaudeSessionManager.stopSession`: when the registry has an
entry for the agent type, send SIGTERM to its process and delete the
entry; otherwise do nothing.  Neither branch raises. -/
def stopSession (st : ManagerState) (agentType : String) : ManagerState :=
  match mapGet st.sessions agentType with
  | none => st
  | some session =>
      { st with procs := killSigTerm st.procs session.procId,
                sessions := mapDelete st.sessions agentType }

/-- Run a sequence of `injectContext` calls, each event being an agent
type paired with the injection prompt of that call. -/
def runInjections (st : ManagerState) : List (String × String) → ManagerState
  | [] => st
  | (a, p) :: rest => runInjections (injectContext st a p).2 rest

/-- `Interleaves t l1 l2`: the trace `t` is an order-preserving
interleaving of the two call sequences `l1` and `l2`.  Each element of
the trace is one atomic `injectContext` call, matching the single
threaded JavaScript event loop in which each call runs to completion. -/
inductive Interleaves {α : Type} : List α → List α → List α → Prop
  | nil : Interleaves [] [] []
  | left {t l1 l2 : List α} {x : α} :
      Interleaves t l1 l2 → Interleaves (x :: t) (x :: l1) l2
  | right {t l1 l2 : List α} {x : α} :
      Interleaves t l1 l2 → Interleaves (x :: t) l1 (x :: l2)

/-! Part B: the Rust injector library, modelled from the specification.
The crate sources (payload module, `SessionDetector`, `ProcessDetector`)
are absent from the repository snapshot; only the library documentation,
build scripts and calling examples are present. -/

/-- Modelled from the spec: the error taxonomy of the Rust injector
library, for the constructors the claims need (`InvalidPayload` for an
out-of-range progress percentage, `ProcessQueryError` when the OS
process enumeration facility is unavailable). -/
inductive InjectorError
  | InvalidPayload
  | ProcessQueryError
deriving Repr, DecidableEq

/-- Modelled from the spec: the tagged variant of an injection payload. -/
inductive PayloadKind
  | context (text : String)
  | warning (text : String)
  | block (text : String)
  | progress (percentage : Int) (message : String)
  | completion (summary : String) (metadata : List (String × String))
deriving Repr, DecidableEq

/-- Modelled from the spec: an `InjectionPayload` value, whose `body` is
a pure function of `kind`. -/
structure InjectionPayload where
  kind : PayloadKind
  body : String
deriving Repr, DecidableEq

/-- Modelled from the spec: `InjectionPayload::progress(percentage,
message)`.  The Rust payload module is not in the snapshot; following
the spec, construction succeeds for a percentage in [0, 100] with a body
that includes the numeric percentage and the message, and fails with
`InvalidPayload` for a percentage outside [0, 100]. -/
def InjectionPayload.progress (percentage : Int) (message : String) :
    Except InjectorError InjectionPayload :=
  if 0 ≤ percentage ∧ percentage ≤ 100 then
    .ok { kind := .progress percentage message,
          body := "Progress: " ++ toString percentage ++ "% - " ++ message }
  else
    .error .InvalidPayload

/-- One parsed line of a session log file: a timestamp, the message
content, and the model identifier when the record carries one. -/
structure LogRecord where
  timestamp : String
  message : String
  model : Option String
deriving Repr, DecidableEq

/-- Modelled from the spec: the `Session` metadata value the Rust
`SessionDetector` produces for one log file. -/
structure Session where
  session_id : String
  project_id : String
  project_path : String
  first_message : String
  model : Option String
  created_at : String
  last_active_at : String
deriving Repr, DecidableEq

/-- Timestamp of the last record of `r :: rs`. -/
def lastTimestamp (r : LogRecord) : List LogRecord → String
  | [] => r.timestamp
  | r1 :: rs => lastTimestamp r1 rs

/-- The model identifier after scanning the records in order, starting
from `acc`: a record carrying a model identifier overwrites the value
seen so far, a record without one leaves it unchanged, so the latest
carrier wins. -/
def latestModel (acc : Option String) : List LogRecord → Option String
  | [] => acc
  | r :: rs => latestModel (match r.model with | some m => some m | none => acc) rs

/-- Modelled from the spec: the per-file reduction performed by
`SessionDetector::get_project_sessions`.  The Rust detector is not in
the snapshot; following the spec, a file parsed into a nonempty record
sequence yields one `Session` whose `first_message` and `created_at`
come from the first record, whose `last_active_at` is the timestamp of
the last record, and whose `model` is the latest value carried by any
record; an empty record sequence yields no session. -/
def reduceSessionFile (session_id project_id project_path : String) :
    List LogRecord → Option Session
  | [] => none
  | r :: rs =>
      some { session_id, project_id, project_path,
             first_message := r.message,
             model := latestModel r.model rs,
             created_at := r.timestamp,
             last_active_at := lastTimestamp r rs }

/-- Modelled from the spec: one row of the OS process scan. -/
structure RunningProcessInfo where
  pid : Nat
  command : String
deriving Repr, DecidableEq

/-- `containsSub pat l`: some suffix of `l` starts with `pat`. -/
def containsSub (pat : List Char) : List Char → Bool
  | [] => pat.isEmpty
  | c :: cs => pat.isPrefixOf (c :: cs) || containsSub pat cs

/-- Modelled from the spec: the filter `ProcessDetector` applies to the
process table — the command line mentions the worker executable name. -/
def matchesWorkerExecutable (command : String) : Bool :=
  containsSub "claude".data command.data

/-- Modelled from the spec:
`ProcessDetector::find_running_claude_processes`.  The Rust detector is
not in the snapshot; following the spec, the enumeration facility either
is unavailable (`none`, failing with `ProcessQueryError`) or yields the
process table, which is filtered to the worker executable name — an
empty result is returned as an empty sequence, not an error. -/
def find_running_claude_processes (table : Option (List RunningProcessInfo)) :
    Except InjectorError (List RunningProcessInfo) :=
  match table with
  | none => .error .ProcessQueryError
  | some procs => .ok (procs.filter (fun p => matchesWorkerExecutable p.command))

/-! Registry (JavaScript `Map`) lemmas. -/

/-- Unfolding equation for `countKey` on a cons cell. -/
theorem countKey_cons (k1 : String) (v1 : SessionEntry)
    (rest : List (String × SessionEntry)) (k : String) :
    countKey ((k1, v1) :: rest) k = (if k1 = k then 1 else 0) + countKey rest k := by
  by_cases h1 : k1 = k
  · simp [countKey, List.filter_cons, h1, Nat.add_comm]
  · simp [countKey, List.filter_cons, h1]

/-- A key outside the key list has no binding. -/
theorem countKey_eq_zero_of_not_mem (m : List (String × SessionEntry)) (k : String)
    (h : k ∉ m.map Prod.fst) : countKey m k = 0 := by
  induction m with
  | nil => rfl
  | cons e rest ih =>
      obtain ⟨k1, v1⟩ := e
      simp only [List.map_cons, List.mem_cons] at h
      push_neg at h
      have h1 : ¬(k1 = k) := fun hk => h.1 hk.symm
      rw [countKey_cons, if_neg h1, ih h.2]

/-- A registry with pairwise distinct keys binds each key at most once. -/
theorem countKey_le_one_of_nodup (m : List (String × SessionEntry)) (k : String)
    (h : (m.map Prod.fst).Nodup) : countKey m k ≤ 1 := by
  induction m with
  | nil => exact Nat.zero_le 1
  | cons e rest ih =>
      obtain ⟨k1, v1⟩ := e
      simp only [List.map_cons, List.nodup_cons] at h
      rw [countKey_cons]
      by_cases h1 : k1 = k
      · subst h1
        rw [countKey_eq_zero_of_not_mem rest k1 h.1]
        simp
      · rw [if_neg h1]
        simpa using ih h.2

/-- A key with no binding looks up to `none`. -/
theorem mapGet_eq_none_of_countKey_eq_zero (m : List (String × SessionEntry)) (k : String)
    (h : countKey m k = 0) : mapGet m k = none := by
  induction m with
  | nil => rfl
  | cons e rest ih =>
      obtain ⟨k1, v1⟩ := e
      rw [countKey_cons] at h
      by_cases h1 : k1 = k
      · rw [if_pos h1] at h
        omega
      · rw [if_neg h1] at h
        show (if k1 = k then some v1 else mapGet rest k) = none
        rw [if_neg h1]
        exact ih (by omega)

/-- After `Map.delete`, a key bound at most once looks up to `none`. -/
theorem mapGet_mapDelete_self (m : List (String × SessionEntry)) (k : String)
    (h : countKey m k ≤ 1) : mapGet (mapDelete m k) k = none := by
  induction m with
  | nil => rfl
  | cons e rest ih =>
      obtain ⟨k1, v1⟩ := e
      rw [countKey_cons] at h
      by_cases h1 : k1 = k
      · show mapGet (if k1 = k then rest else (k1, v1) :: mapDelete rest k) k = none
        rw [if_pos h1]
        rw [if_pos h1] at h
        exact mapGet_eq_none_of_countKey_eq_zero rest k (by omega)
      · show mapGet (if k1 = k then rest else (k1, v1) :: mapDelete rest k) k = none
        rw [if_neg h1]
        show (if k1 = k then some v1 else mapGet (mapDelete rest k) k) = none
        rw [if_neg h1]
        rw [if_neg h1] at h
        exact ih (by omega)

/-- `Map.set` makes the key look up to the stored value. -/
theorem mapGet_mapSet_self (m : List (String × SessionEntry)) (k : String) (v : SessionEntry) :
    mapGet (mapSet m k v) k = some v := by
  induction m with
  | nil => simp [mapSet, mapGet]
  | cons e rest ih =>
      obtain ⟨k1, v1⟩ := e
      by_cases h1 : k1 = k
      · show mapGet (if k1 = k then (k, v) :: rest else (k1, v1) :: mapSet rest k v) k = some v
        rw [if_pos h1]
        show (if k = k then some v else mapGet rest k) = some v
        rw [if_pos rfl]
      · show mapGet (if k1 = k then (k, v) :: rest else (k1, v1) :: mapSet rest k v) k = some v
        rw [if_neg h1]
        show (if k1 = k then some v1 else mapGet (mapSet rest k v) k) = some v
        rw [if_neg h1]
        exact ih

/-- `Map.set` leaves the key bound exactly once when it was bound at
most once before. -/
theorem countKey_mapSet_self (m : List (String × SessionEntry)) (k : String) (v : SessionEntry)
    (h : countKey m k ≤ 1) : countKey (mapSet m k v) k = 1 := by
  induction m with
  | nil =>
      show countKey [(k, v)] k = 1
      rw [show ([(k, v)] : List (String × SessionEntry)) = (k, v) :: [] from rfl, countKey_cons,
        if_pos rfl]
      rfl
  | cons e rest ih =>
      obtain ⟨k1, v1⟩ := e
      rw [countKey_cons] at h
      by_cases h1 : k1 = k
      · show countKey (if k1 = k then (k, v) :: rest else (k1, v1) :: mapSet rest k v) k = 1
        rw [if_pos h1, countKey_cons, if_pos rfl]
        rw [if_pos h1] at h
        omega
      · show countKey (if k1 = k then (k, v) :: rest else (k1, v1) :: mapSet rest k v) k = 1
        rw [if_neg h1, countKey_cons, if_neg h1]
        rw [if_neg h1] at h
        rw [ih (by omega)]

/-! Concrete fixtures used by witnesses and counterexamples. -/

/-- A manager with no sessions, no spawned processes, no task files. -/
def emptyManager : ManagerState := { sessions := [], procs := [], taskFiles := [] }

/-- A registered session entry backed by process 0. -/
def demoEntry : SessionEntry :=
  { procId := 0, agentType := "coding-agent", taskId := "task-1",
    startedAt := "2025-11-14T00:00:00Z", outputBuffer := "" }

/-- A manager with exactly one live session, `coding-agent`. -/
def oneSessionState : ManagerState :=
  { sessions := [("coding-agent", demoEntry)],
    procs := [{ stdinData := [], sigTermSent := false }],
    taskFiles := [] }

/-- A prompts directory in which every agent prompt file reads fine. -/
def promptFS : FileSystem := { promptFile := fun _ => some "You are an agent." }

/-- A prompts directory in which every prompt read fails. -/
def noPromptFS : FileSystem := { promptFile := fun _ => none }

/-- A demo task context. -/
def tcDemo : TaskContext := { title := "Demo task", subtask_id := "sub-1", details := none }

/-- If a state satisfies `mapGet` of its own sessions at a key being
`none`, then `stopSession` at that key is the identity. -/
theorem stopSession_of_none (st : ManagerState) (agentType : String)
    (h : mapGet st.sessions agentType = none) : stopSession st agentType = st := by
  unfold stopSession
  rw [h]

/-! Claim theorems. -/

/-- Claim C1, counterexample.  The claim says injecting with a session
id for which no managed process exists fails with SessionNotFound and
never succeeds silently.  In the code, on the empty registry the call
returns normally with the early-return outcome and the state unchanged:
nothing is written, and no error is raised — the operation has no error
outcome at all — so the call succeeds silently. -/
theorem injectContext_unknown_returns_silently :
    injectContext emptyManager "ghost-agent" "payload" =
      (InjectResult.skippedNoSession, emptyManager) := rfl

/-- Claim C1, amended.  For every call to injectContext with an agent
type for which no managed process exists in the registry (whether never
started, or already removed by the exit handler or by stopSession), the
call is a silent no-op: it logs a warning, writes nothing, leaves the
whole manager state unchanged and raises no error; the code has no
SessionNotFound or SessionNotActive failure. -/
theorem injectContext_unknown_session_noop (st : ManagerState) (agentType payload : String)
    (h : mapGet st.sessions agentType = none) :
    injectContext st agentType payload = (InjectResult.skippedNoSession, st) := by
  unfold injectContext
  rw [h]

/-- Witness for the amended claim C1 at a concrete input. -/
theorem injectContext_unknown_session_noop_witness :
    injectContext emptyManager "coding-agent" "update" =
      (InjectResult.skippedNoSession, emptyManager) :=
  injectContext_unknown_session_noop emptyManager "coding-agent" "update" rfl

/-- Claim C5.  stopSession is idempotent: for every state whose registry
binds each agent type at most once (the Map invariant) and every agent
type, calling stopSession a second time immediately after a first call
leaves the state of the first call unchanged; the operation is total
with no error outcome, so the second call never errors. -/
theorem stopSession_idempotent (st : ManagerState) (agentType : String)
    (h : (st.sessions.map Prod.fst).Nodup) :
    stopSession (stopSession st agentType) agentType = stopSession st agentType := by
  have hle : countKey st.sessions agentType ≤ 1 :=
    countKey_le_one_of_nodup st.sessions agentType h
  cases hg : mapGet st.sessions agentType with
  | none =>
      rw [stopSession_of_none st agentType hg]
      exact stopSession_of_none st agentType hg
  | some entry =>
      have h1 : stopSession st agentType =
          { st with procs := killSigTerm st.procs entry.procId,
                    sessions := mapDelete st.sessions agentType } := by
        unfold stopSession
        rw [hg]
      have h2 : mapGet (stopSession st agentType).sessions agentType = none := by
        rw [h1]
        exact mapGet_mapDelete_self st.sessions agentType hle
      exact stopSession_of_none _ agentType h2

/-- Witness for claim C5 at a concrete input. -/
theorem stopSession_idempotent_witness :
    stopSession (stopSession oneSessionState "coding-agent") "coding-agent" =
      stopSession oneSessionState "coding-agent" :=
  stopSession_idempotent oneSessionState "coding-agent" (by decide)

/-- Claim C10.  If the system prompt file for the requested agent cannot
be read, startSession returns null without spawning any child process,
and the whole manager state — the session registry, the spawned process
list and the task files written — is left unchanged. -/
theorem startSession_prompt_read_failure (fs : FileSystem) (st : ManagerState)
    (agentType taskId : String) (tc : TaskContext) (now : String)
    (h : fs.promptFile agentType = none) :
    startSession fs st agentType taskId tc now = (none, st) := by
  unfold startSession
  rw [h]

/-- Witness for claim C10 at a concrete input. -/
theorem startSession_prompt_read_failure_witness :
    startSession noPromptFS oneSessionState "coding-agent" "task-2" tcDemo
      "2025-11-14T01:00:00Z" = (none, oneSessionState) :=
  startSession_prompt_read_failure noPromptFS oneSessionState "coding-agent" "task-2" tcDemo
    "2025-11-14T01:00:00Z" rfl

/-- The session entry `startSession` builds when the prompt read
succeeds: its process is the next index of the spawn list. -/
def mkEntry (st : ManagerState) (agentType taskId now : String) : SessionEntry :=
  { procId := st.procs.length, agentType, taskId, startedAt := now, outputBuffer := "" }

/-- Unfolding equation for a successful `startSession`. -/
theorem startSession_ok (fs : FileSystem) (st : ManagerState) (agentType taskId : String)
    (tc : TaskContext) (now : String) (p : String) (hp : fs.promptFile agentType = some p) :
    startSession fs st agentType taskId tc now =
      (some (mkEntry st agentType taskId now),
       { sessions := mapSet st.sessions agentType (mkEntry st agentType taskId now),
         procs := st.procs ++ [{ stdinData := [], sigTermSent := false }],
         taskFiles := st.taskFiles ++ [(agentType, tc)] }) := by
  unfold startSession mkEntry
  rw [hp]

/-- Two consecutive `startSession` calls for the same agent type,
without an intervening stop. -/
def startTwice : Option SessionEntry × ManagerState :=
  startSession promptFS
    (startSession promptFS emptyManager "coding-agent" "task-1" tcDemo
      "2025-11-14T00:00:00Z").2
    "coding-agent" "task-2" tcDemo "2025-11-14T00:00:01Z"

/-- Claim C2, counterexample.  The claim says a second startSession for
an already-active session is rejected with AlreadyActive and leaves
exactly one process registered.  In the code the second call is not
rejected: starting `coding-agent` twice from the empty manager returns a
session on the second call as well (no AlreadyActive error exists), a
second child process has been spawned for the same identity — two
processes now exist where the claim requires one — and the registry
binding was silently overwritten to point at the newer process. -/
theorem startSession_duplicate_not_rejected :
    startTwice.1.isSome = true
    ∧ startTwice.2.procs.length = 2
    ∧ (mapGet startTwice.2.sessions "coding-agent").map SessionEntry.procId = some 1 := by
  refine ⟨rfl, rfl, ?_⟩
  decide

/-- Claim C2, amended.  Calling startSession twice for the same agent
type without an intervening stop is not rejected — the code performs no
already-active check and has no AlreadyActive error.  The second call
also succeeds, a second child process is spawned (the spawn list grows
by two over the two calls), and the registry binding is silently
overwritten: under the Map invariant the registry is left with exactly
one binding for the agent type, and it designates the newer process,
while the first process keeps running untracked. -/
theorem startSession_duplicate_overwrites (fs : FileSystem) (st : ManagerState)
    (agentType taskId1 taskId2 : String) (tc1 tc2 : TaskContext) (now1 now2 : String)
    (p : String) (hp : fs.promptFile agentType = some p)
    (hkeys : (st.sessions.map Prod.fst).Nodup) :
    ((startSession fs (startSession fs st agentType taskId1 tc1 now1).2
        agentType taskId2 tc2 now2).1).isSome = true
    ∧ (startSession fs (startSession fs st agentType taskId1 tc1 now1).2
        agentType taskId2 tc2 now2).2.procs.length = st.procs.length + 2
    ∧ mapGet (startSession fs (startSession fs st agentType taskId1 tc1 now1).2
        agentType taskId2 tc2 now2).2.sessions agentType =
        (startSession fs (startSession fs st agentType taskId1 tc1 now1).2
          agentType taskId2 tc2 now2).1
    ∧ countKey (startSession fs (startSession fs st agentType taskId1 tc1 now1).2
        agentType taskId2 tc2 now2).2.sessions agentType = 1 := by
  rw [startSession_ok fs st agentType taskId1 tc1 now1 p hp]
  rw [startSession_ok fs _ agentType taskId2 tc2 now2 p hp]
  refine ⟨rfl, ?_, ?_, ?_⟩
  · simp
  · exact mapGet_mapSet_self _ _ _
  · apply countKey_mapSet_self
    have h1 : countKey st.sessions agentType ≤ 1 :=
      countKey_le_one_of_nodup st.sessions agentType hkeys
    rw [countKey_mapSet_self st.sessions agentType _ h1]

/-- Witness for the amended claim C2 at a concrete input. -/
theorem startSession_duplicate_overwrites_witness :
    (startTwice.1).isSome = true
    ∧ startTwice.2.procs.length = emptyManager.procs.length + 2
    ∧ mapGet startTwice.2.sessions "coding-agent" = startTwice.1
    ∧ countKey startTwice.2.sessions "coding-agent" = 1 :=
  startSession_duplicate_overwrites promptFS emptyManager "coding-agent" "task-1" "task-2"
    tcDemo tcDemo "2025-11-14T00:00:00Z" "2025-11-14T00:00:01Z" "You are an agent." rfl
    (by decide)

/-- Claim C9, counterexample.  The claim says a nonzero exit code causes
the managed process to be recorded as Failed, unlike the clean exit
code 0.  In the code the exit handler ignores the exit code: on a
manager with one live session, an exit with nonzero code 1 produces
exactly the same state as an exit with code 0 — the registry entry is
deleted and nothing records a Failed status (the manager state has no
status field at all), so nothing distinguishes a failed exit from a
clean one. -/
theorem onExit_ignores_exit_code :
    onExit oneSessionState "coding-agent" 1 = onExit oneSessionState "coding-agent" 0
    ∧ (onExit oneSessionState "coding-agent" 1).sessions = [] := by
  refine ⟨rfl, ?_⟩
  decide

/-- Claim C9, amended.  When a managed worker child process exits, the
exit handler deletes the registry entry for the agent type regardless of
the exit code: for any code the resulting state equals the state for a
clean exit with code 0, and no Failed status is recorded — the manager
keeps no status at all.  What does hold of the spirit of the claim is
that the exited session can no longer be injected into: under the Map
invariant the entry is gone and a subsequent injection for that agent
type takes the silent early-return path. -/
theorem onExit_deletes_entry_ignoring_code (st : ManagerState) (agentType payload : String)
    (code : Int) (h : (st.sessions.map Prod.fst).Nodup) :
    onExit st agentType code = onExit st agentType 0
    ∧ mapGet (onExit st agentType code).sessions agentType = none
    ∧ (injectContext (onExit st agentType code) agentType payload).1 =
        InjectResult.skippedNoSession := by
  have hle : countKey st.sessions agentType ≤ 1 :=
    countKey_le_one_of_nodup st.sessions agentType h
  have hnone : mapGet (onExit st agentType code).sessions agentType = none :=
    mapGet_mapDelete_self st.sessions agentType hle
  refine ⟨rfl, hnone, ?_⟩
  unfold injectContext
  rw [hnone]

/-- Witness for the amended claim C9 at a concrete input. -/
theorem onExit_deletes_entry_ignoring_code_witness :
    onExit oneSessionState "coding-agent" 7 = onExit oneSessionState "coding-agent" 0
    ∧ mapGet (onExit oneSessionState "coding-agent" 7).sessions "coding-agent" = none
    ∧ (injectContext (onExit oneSessionState "coding-agent" 7) "coding-agent" "update").1 =
        InjectResult.skippedNoSession :=
  onExit_deletes_entry_ignoring_code oneSessionState "coding-agent" "update" 7 (by decide)

/-! Stdin-stream lemmas for the interleaving claim. -/

/-- Writing preserves the number of spawned processes. -/
theorem writeStdin_length (procs : List SpawnedProcess) (i : Nat) (s : String) :
    (writeStdin procs i s).length = procs.length := by
  induction procs generalizing i with
  | nil => rfl
  | cons p ps ih =>
      cases i with
      | zero => rfl
      | succ j => simp [writeStdin, ih]

/-- Writing to process `i` appends one line to its stdin stream. -/
theorem stdinOf_writeStdin_self (procs : List SpawnedProcess) (i : Nat) (s : String)
    (h : i < procs.length) :
    stdinOf (writeStdin procs i s) i = stdinOf procs i ++ [s] := by
  induction procs generalizing i with
  | nil => simp at h
  | cons p ps ih =>
      cases i with
      | zero => rfl
      | succ j =>
          show stdinOf (writeStdin ps j s) j = stdinOf ps j ++ [s]
          exact ih j (by simpa using h)

/-- Writing to process `i` leaves the stdin stream of any other process
untouched. -/
theorem stdinOf_writeStdin_ne (procs : List SpawnedProcess) (i j : Nat) (s : String)
    (h : j ≠ i) : stdinOf (writeStdin procs i s) j = stdinOf procs j := by
  induction procs generalizing i j with
  | nil => rfl
  | cons p ps ih =>
      cases i with
      | zero =>
          cases j with
          | zero => exact absurd rfl h
          | succ j2 => rfl
      | succ i2 =>
          cases j with
          | zero => rfl
          | succ j2 =>
              show stdinOf (writeStdin ps i2 s) j2 = stdinOf ps j2
              exact ih i2 j2 (fun hh => h (by rw [hh]))

/-- Unfolding equation for `injectContext` when the session exists. -/
theorem injectContext_found (st : ManagerState) (a p : String) (entry : SessionEntry)
    (h : mapGet st.sessions a = some entry) :
    injectContext st a p =
      (InjectResult.written,
       { st with procs := writeStdin st.procs entry.procId (p ++ "\n") }) := by
  unfold injectContext
  rw [h]

/-- Unfolding equation for `runInjections` on a cons cell. -/
theorem runInjections_cons (st : ManagerState) (a p : String)
    (rest : List (String × String)) :
    runInjections st ((a, p) :: rest) = runInjections (injectContext st a p).2 rest := rfl

/-- Claim C3.  Per-session ordering and isolation of injections: fix two
registered sessions `a` and `b` backed by distinct spawned processes.
For any trace that interleaves a sequence of injection calls into
session `a` (in the order one caller issued them) with a sequence of
injection calls into session `b` (in the order the other caller issued
them) — each trace element being one atomic injectContext call, which
matches the single-threaded JavaScript event loop — the final stdin
stream of the process of `a` is its previous stream followed by exactly
the payloads of caller `a`, each intact as one newline-terminated write,
in caller order, with nothing from caller `b` interleaved; and
symmetrically for `b`.  In particular a single caller injecting `P1`
then `P2` into one session is observed in that order, and two callers
injecting 100 payloads each into two different sessions each deliver
exactly their own 100 payloads to their own session. -/
theorem inject_interleaving (a b : String) (sa sb : SessionEntry)
    (hne : sa.procId ≠ sb.procId)
    (t e1 e2 : List (String × String)) (ht : Interleaves t e1 e2) :
    ∀ st : ManagerState,
      (∀ e ∈ e1, e.1 = a) → (∀ e ∈ e2, e.1 = b) →
      mapGet st.sessions a = some sa → mapGet st.sessions b = some sb →
      sa.procId < st.procs.length → sb.procId < st.procs.length →
      stdinOf (runInjections st t).procs sa.procId
        = stdinOf st.procs sa.procId ++ e1.map (fun e => e.2 ++ "\n")
      ∧ stdinOf (runInjections st t).procs sb.procId
        = stdinOf st.procs sb.procId ++ e2.map (fun e => e.2 ++ "\n") := by
  induction ht with
  | nil =>
      intro st _ _ _ _ _ _
      constructor <;> simp [runInjections]
  | @left t1 l1 l2 x h ih =>
      intro st he1 he2 ha hb hpa hpb
      obtain ⟨xa, xp⟩ := x
      have hxa : xa = a := he1 (xa, xp) (List.mem_cons_self _ _)
      subst hxa
      rw [runInjections_cons, injectContext_found st xa xp sa ha]
      have hlen : (writeStdin st.procs sa.procId (xp ++ "\n")).length = st.procs.length :=
        writeStdin_length st.procs sa.procId (xp ++ "\n")
      obtain ⟨A, B⟩ := ih
        { st with procs := writeStdin st.procs sa.procId (xp ++ "\n") }
        (fun e he => he1 e (List.mem_cons_of_mem _ he)) he2 ha hb
        (by rw [hlen]; exact hpa) (by rw [hlen]; exact hpb)
      constructor
      · rw [A, stdinOf_writeStdin_self st.procs sa.procId (xp ++ "\n") hpa]
        simp
      · rw [B, stdinOf_writeStdin_ne st.procs sa.procId sb.procId (xp ++ "\n")
          (fun hh => hne hh.symm)]
  | @right t1 l1 l2 x h ih =>
      intro st he1 he2 ha hb hpa hpb
      obtain ⟨xb, xp⟩ := x
      have hxb : xb = b := he2 (xb, xp) (List.mem_cons_self _ _)
      subst hxb
      rw [runInjections_cons, injectContext_found st xb xp sb hb]
      have hlen : (writeStdin st.procs sb.procId (xp ++ "\n")).length = st.procs.length :=
        writeStdin_length st.procs sb.procId (xp ++ "\n")
      obtain ⟨A, B⟩ := ih
        { st with procs := writeStdin st.procs sb.procId (xp ++ "\n") }
        he1 (fun e he => he2 e (List.mem_cons_of_mem _ he)) ha hb
        (by rw [hlen]; exact hpa) (by rw [hlen]; exact hpb)
      constructor
      · rw [A, stdinOf_writeStdin_ne st.procs sb.procId sa.procId (xp ++ "\n") hne]
      · rw [B, stdinOf_writeStdin_self st.procs sb.procId (xp ++ "\n") hpb]
        simp

/-- A second registered session entry backed by process 1. -/
def demoEntryB : SessionEntry :=
  { procId := 1, agentType := "testing-agent", taskId := "task-2",
    startedAt := "2025-11-14T00:00:00Z", outputBuffer := "" }

/-- A manager with two live sessions backed by distinct processes. -/
def twoSessionState : ManagerState :=
  { sessions := [("coding-agent", demoEntry), ("testing-agent", demoEntryB)],
    procs := [{ stdinData := [], sigTermSent := false },
              { stdinData := [], sigTermSent := false }],
    taskFiles := [] }

/-- Witness for claim C3 at a concrete input: the trace interleaves two
injections into `coding-agent` with one into `testing-agent`. -/
theorem inject_interleaving_witness :
    stdinOf (runInjections twoSessionState
        [("coding-agent", "x1"), ("testing-agent", "y1"), ("coding-agent", "x2")]).procs
        demoEntry.procId
      = stdinOf twoSessionState.procs demoEntry.procId
          ++ ([("coding-agent", "x1"), ("coding-agent", "x2")].map (fun e => e.2 ++ "\n"))
    ∧ stdinOf (runInjections twoSessionState
        [("coding-agent", "x1"), ("testing-agent", "y1"), ("coding-agent", "x2")]).procs
        demoEntryB.procId
      = stdinOf twoSessionState.procs demoEntryB.procId
          ++ ([("testing-agent", "y1")].map (fun e => e.2 ++ "\n")) :=
  inject_interleaving "coding-agent" "testing-agent" demoEntry demoEntryB (by decide)
    [("coding-agent", "x1"), ("testing-agent", "y1"), ("coding-agent", "x2")]
    [("coding-agent", "x1"), ("coding-agent", "x2")] [("testing-agent", "y1")]
    (.left (.right (.left .nil)))
    twoSessionState (by decide) (by decide) (by decide) (by decide) (by decide) (by decide)

/-! Spec-modelled component theorems. -/

/-- Claim C4.  For every integer percentage in [0, 100] and every
message, constructing a progress payload succeeds and its formatted body
contains the exact integer and the message; for every integer outside
[0, 100], construction fails with InvalidPayload. -/
theorem progress_range (p : Int) (m : String) :
    (0 ≤ p ∧ p ≤ 100 →
      ∃ pl : InjectionPayload, InjectionPayload.progress p m = .ok pl
        ∧ (toString p).data <:+: pl.body.data
        ∧ m.data <:+: pl.body.data)
    ∧ (¬(0 ≤ p ∧ p ≤ 100) →
      InjectionPayload.progress p m = .error InjectorError.InvalidPayload) := by
  constructor
  · intro h
    refine ⟨{ kind := .progress p m,
              body := "Progress: " ++ toString p ++ "% - " ++ m }, ?_, ?_, ?_⟩
    · unfold InjectionPayload.progress
      rw [if_pos h]
    · refine ⟨"Progress: ".data, ("% - " ++ m).data, ?_⟩
      simp [String.data_append]
    · refine ⟨("Progress: " ++ toString p ++ "% - ").data, [], ?_⟩
      simp [String.data_append]
  · intro h
    unfold InjectionPayload.progress
    rw [if_neg h]

/-- Witness for claim C4 at concrete inputs, one in range and one out of
range. -/
theorem progress_range_witness :
    (∃ pl : InjectionPayload, InjectionPayload.progress 42 "Almost done" = .ok pl
      ∧ (toString (42 : Int)).data <:+: pl.body.data
      ∧ "Almost done".data <:+: pl.body.data)
    ∧ InjectionPayload.progress 101 "over" = .error InjectorError.InvalidPayload :=
  ⟨(progress_range 42 "Almost done").1 (by decide),
   (progress_range 101 "over").2 (by decide)⟩

/-- The scan of the trailing records lands on the timestamp of the last
record. -/
theorem lastTimestamp_eq_getLast (r : LogRecord) (rs : List LogRecord) :
    lastTimestamp r rs = (List.getLast (r :: rs) (List.cons_ne_nil r rs)).timestamp := by
  induction rs generalizing r with
  | nil => rfl
  | cons r1 rs1 ih =>
      have hg : List.getLast (r :: r1 :: rs1) (List.cons_ne_nil r (r1 :: rs1)) =
          List.getLast (r1 :: rs1) (List.cons_ne_nil r1 rs1) :=
        List.getLast_cons (List.cons_ne_nil r1 rs1)
      rw [show lastTimestamp r (r1 :: rs1) = lastTimestamp r1 rs1 from rfl, ih r1, hg]

/-- Claim C6.  Round-trip through the Session Detector: reading back any
nonempty sequence of session log records yields one Session whose
created_at is the timestamp of the first record and whose last_active_at
is the timestamp of the last record. -/
theorem reduceSessionFile_roundtrip (sid pid ppath : String) (rs : List LogRecord)
    (h : rs ≠ []) :
    ∃ s : Session, reduceSessionFile sid pid ppath rs = some s
      ∧ s.created_at = (rs.head h).timestamp
      ∧ s.last_active_at = (rs.getLast h).timestamp := by
  cases rs with
  | nil => exact absurd rfl h
  | cons r rest =>
      refine ⟨_, rfl, rfl, ?_⟩
      show lastTimestamp r rest = _
      rw [lastTimestamp_eq_getLast r rest]

/-- Witness for claim C6 at a concrete two-record file. -/
theorem reduceSessionFile_roundtrip_witness :
    ∃ s : Session,
      reduceSessionFile "sess-1" "proj-1" "/work"
          [{ timestamp := "t1", message := "hello", model := none },
           { timestamp := "t2", message := "world", model := none }] = some s
      ∧ s.created_at =
          (([{ timestamp := "t1", message := "hello", model := none },
             { timestamp := "t2", message := "world", model := none }] :
              List LogRecord).head (by simp)).timestamp
      ∧ s.last_active_at =
          (([{ timestamp := "t1", message := "hello", model := none },
             { timestamp := "t2", message := "world", model := none }] :
              List LogRecord).getLast (by simp)).timestamp :=
  reduceSessionFile_roundtrip "sess-1" "proj-1" "/work"
    [{ timestamp := "t1", message := "hello", model := none },
     { timestamp := "t2", message := "world", model := none }] (by simp)

/-- Scanning a concatenation scans the second part starting from the
result of the first. -/
theorem latestModel_append (acc : Option String) (xs ys : List LogRecord) :
    latestModel acc (xs ++ ys) = latestModel (latestModel acc xs) ys := by
  induction xs generalizing acc with
  | nil => rfl
  | cons x xs1 ih => exact ih _

/-- Records without a model identifier leave the scan unchanged. -/
theorem latestModel_of_none (acc : Option String) (ys : List LogRecord)
    (h : ∀ r ∈ ys, r.model = none) : latestModel acc ys = acc := by
  induction ys generalizing acc with
  | nil => rfl
  | cons y ys1 ih =>
      have hy : y.model = none := h y (List.mem_cons_self _ _)
      show latestModel (match y.model with | some m => some m | none => acc) ys1 = acc
      rw [hy]
      exact ih acc (fun r hr => h r (List.mem_cons_of_mem _ hr))

/-- Claim C7.  When the model identifier appears in several records with
different values, the latest carrier wins: for any record sequence with
a record `r` carrying a model identifier and no later record carrying
one, the reduced Session has exactly the model of `r`, whatever models
any earlier records carried. -/
theorem model_latest_wins (sid pid ppath : String) (l1 : List LogRecord) (r : LogRecord)
    (l2 : List LogRecord) (m : String) (hm : r.model = some m)
    (h2 : ∀ r2 ∈ l2, r2.model = none) :
    ∃ s : Session, reduceSessionFile sid pid ppath (l1 ++ r :: l2) = some s
      ∧ s.model = some m := by
  have step : ∀ acc : Option String, latestModel acc (r :: l2) = some m := by
    intro acc
    show latestModel (match r.model with | some mm => some mm | none => acc) l2 = some m
    rw [hm]
    exact latestModel_of_none (some m) l2 h2
  cases l1 with
  | nil =>
      refine ⟨_, rfl, ?_⟩
      show latestModel r.model l2 = some m
      rw [hm]
      exact latestModel_of_none (some m) l2 h2
  | cons r0 l1tail =>
      refine ⟨_, rfl, ?_⟩
      show latestModel r0.model (l1tail ++ r :: l2) = some m
      rw [latestModel_append]
      exact step _

/-- Witness for claim C7 at a concrete file in which the model appears
twice with different values followed by a record without one. -/
theorem model_latest_wins_witness :
    ∃ s : Session,
      reduceSessionFile "sess-2" "proj-1" "/work"
          ([{ timestamp := "t1", message := "a", model := some "claude-3" }] ++
            { timestamp := "t2", message := "b", model := some "claude-sonnet-4" } ::
            [{ timestamp := "t3", message := "c", model := none }]) = some s
      ∧ s.model = some "claude-sonnet-4" :=
  model_latest_wins "sess-2" "proj-1" "/work"
    [{ timestamp := "t1", message := "a", model := some "claude-3" }]
    { timestamp := "t2", message := "b", model := some "claude-sonnet-4" }
    [{ timestamp := "t3", message := "c", model := none }] "claude-sonnet-4" rfl (by decide)

/-- Claim C8.  find_running_claude_processes returns an empty sequence,
not an error, whenever the OS process enumeration facility is available
but no process matches the worker executable name; it fails with
ProcessQueryError exactly when the enumeration facility itself is
unavailable. -/
theorem find_processes_empty_not_error (table : List RunningProcessInfo)
    (h : ∀ pr ∈ table, matchesWorkerExecutable pr.command = false) :
    find_running_claude_processes (some table) = .ok []
    ∧ find_running_claude_processes none = .error InjectorError.ProcessQueryError := by
  constructor
  · show Except.ok (table.filter (fun pr => matchesWorkerExecutable pr.command)) =
      Except.ok ([] : List RunningProcessInfo)
    congr 1
    exact List.filter_eq_nil_iff.mpr (fun pr hpr => by rw [h pr hpr]; simp)
  · rfl

/-- Witness for claim C8 at a concrete process table with no match. -/
theorem find_processes_empty_not_error_witness :
    find_running_claude_processes
        (some [{ pid := 100, command := "bash" }, { pid := 101, command := "vim todo.txt" }])
      = .ok []
    ∧ find_running_claude_processes none = .error InjectorError.ProcessQueryError :=
  find_processes_empty_not_error
    [{ pid := 100, command := "bash" }, { pid := 101, command := "vim todo.txt" }] (by decide)

end ClaudeAutomation
